import Mathlib

/-!
Verification of the content-generation pipeline of the Yokiru/nue learning app.

The development shallowly embeds the JavaScript sources:
  * `src/services/gemini.js`   — `callGeminiAPI`, `generateExplanation`,
    `generateQuizQuestions` (timeout/retry wrapper and response normalizers);
  * `src/pages/Result.jsx`     — `fetchExplanation`, `saveToHistory`,
    `maintainHistoryLimit`, `handleFeedbackSubmit` (session pipeline,
    history cache, clarification append);
  * `src/services/storage.js`  — `uploadAvatar`.

JavaScript values flowing through `JSON.parse` are modelled by the `Json`
type below (a mutual inductive so that decidable equality is derivable).
Asynchronous effects are modelled by passing the outcome of each external
call (the fetch to the proxy, the generation call, the storage upload) as
an explicit argument, and the Supabase `history` table as an explicit list
of rows threaded through the functions.
-/

mutual

/-- A JSON value as produced by `JSON.parse`.  Numbers keep their source
lexeme (no claim in this development inspects numeric values). -/
inductive Json where
  | null
  | bool (b : Bool)
  | num (lex : String)
  | str (s : String)
  | arr (xs : JsonList)
  | obj (fields : JsonFields)
deriving DecidableEq

/-- A list of JSON values (spelled out so `DecidableEq` derives). -/
inductive JsonList where
  | nil
  | cons (hd : Json) (tl : JsonList)
deriving DecidableEq

/-- The fields of a JSON object, in source order. -/
inductive JsonFields where
  | nil
  | cons (key : String) (val : Json) (tl : JsonFields)
deriving DecidableEq

end

/-- Build a `JsonList` from a Lean list (literal notation helper). -/
def JsonList.ofList : List Json → JsonList
  | [] => .nil
  | x :: xs => .cons x (JsonList.ofList xs)

/-- Build `JsonFields` from a Lean association list. -/
def JsonFields.ofList : List (String × Json) → JsonFields
  | [] => .nil
  | (k, v) :: xs => .cons k v (JsonFields.ofList xs)

/-- JSON array literal helper. -/
def jarr (xs : List Json) : Json := .arr (JsonList.ofList xs)

/-- JSON object literal helper. -/
def jobj (fs : List (String × Json)) : Json := .obj (JsonFields.ofList fs)

/-- Number of elements of a JSON list. -/
def JsonList.length : JsonList → Nat
  | .nil => 0
  | .cons _ tl => tl.length + 1

/-- Membership test in a JSON list (JavaScript `options.includes(x)` on
parsed values; strings compare by content). -/
def JsonList.elemJ (x : Json) : JsonList → Bool
  | .nil => false
  | .cons h t => decide (x = h) || JsonList.elemJ x t

/-- Property access `o[k]` on a parsed JSON object: `none` models
JavaScript `undefined`.  With duplicate keys `JSON.parse` keeps the last
occurrence, so the search prefers the rightmost binding. -/
def JsonFields.get? : JsonFields → String → Option Json
  | .nil, _ => none
  | .cons key v tl, k =>
    match JsonFields.get? tl k with
    | some w => some w
    | none => if key = k then some v else none

/-- Property access on an arbitrary JSON value: non-objects have no
properties (JavaScript yields `undefined`; `null.prop` throws, which the
sources always catch into the same fallback branch). -/
def jget : Json → String → Option Json
  | .obj fs, k => fs.get? k
  | _, _ => none

/-- JavaScript truthiness of a parsed JSON value: `null`, `false`, `0`
and `""` are falsy; arrays and objects (even empty) are truthy.  A number
is falsy exactly when all mantissa digits of its lexeme are `0`. -/
def truthy : Json → Bool
  | .null => false
  | .bool b => b
  | .num lex => !((lex.toList.takeWhile (fun c => decide (c ≠ 'e') && decide (c ≠ 'E'))).all
      (fun c => !c.isDigit || decide (c = '0')))
  | .str s => decide (s ≠ "")
  | .arr _ => true
  | .obj _ => true

/-- `Array.isArray` on an optional property value. -/
def isArrayOpt : Option Json → Bool
  | some (.arr _) => true
  | _ => false

/-- Skip JSON whitespace. -/
def skipWs : List Char → List Char
  | c :: cs => if c = ' ' ∨ c = '\t' ∨ c = '\n' ∨ c = '\r' then skipWs cs else c :: cs
  | [] => []

/-- Hexadecimal digit test for `\u` escapes. -/
def isHexDig (c : Char) : Bool :=
  c.isDigit || (decide ('a' ≤ c) && decide (c ≤ 'f')) || (decide ('A' ≤ c) && decide (c ≤ 'F'))

/-- Value of a hexadecimal digit. -/
def hexVal (c : Char) : Nat :=
  if c.isDigit then c.toNat - 48
  else if decide ('a' ≤ c) && decide (c ≤ 'f') then c.toNat - 87
  else if decide ('A' ≤ c) && decide (c ≤ 'F') then c.toNat - 55
  else 0

/-- Decode one string body after the opening quote, returning the decoded
characters and the rest of the input past the closing quote. -/
def parseStringAux : List Char → Option (List Char × List Char)
  | [] => none
  | '"' :: rest => some ([], rest)
  | '\\' :: 'u' :: a :: b :: c :: d :: rest =>
    if isHexDig a && isHexDig b && isHexDig c && isHexDig d then
      (parseStringAux rest).map fun (p : List Char × List Char) =>
        (Char.ofNat (4096 * hexVal a + 256 * hexVal b + 16 * hexVal c + hexVal d) :: p.1, p.2)
    else none
  | '\\' :: e :: rest =>
    (match e with
     | '"' => some '"'
     | '\\' => some '\\'
     | '/' => some '/'
     | 'b' => some (Char.ofNat 8)
     | 'f' => some (Char.ofNat 12)
     | 'n' => some '\n'
     | 'r' => some '\r'
     | 't' => some '\t'
     | _ => none).bind fun c =>
      (parseStringAux rest).map fun (p : List Char × List Char) => (c :: p.1, p.2)
  | c :: rest =>
    if c.toNat < 32 then none
    else (parseStringAux rest).map fun (p : List Char × List Char) => (c :: p.1, p.2)

/-- Longest digit run at the head of the input. -/
def parseDigits : List Char → List Char × List Char
  | c :: cs =>
    if c.isDigit then
      let p := parseDigits cs
      (c :: p.1, p.2)
    else ([], c :: cs)
  | [] => ([], [])

/-- Parse an optional exponent after the mantissa lexeme `mant`. -/
def parseExpPart (mant : List Char) (cs : List Char) : Option (String × List Char) :=
  match cs with
  | 'e' :: rest | 'E' :: rest =>
    let (signPart, r1) :=
      match rest with
      | '+' :: r => (['+'], r)
      | '-' :: r => (['-'], r)
      | _ => ([], rest)
    let (es, r2) := parseDigits r1
    if es.isEmpty then none
    else some (String.mk (mant ++ 'e' :: signPart ++ es), r2)
  | _ => some (String.mk mant, cs)

/-- Parse a JSON number, returning its lexeme (grammar of `JSON.parse`:
optional minus, integer part without leading zeros, optional fraction,
optional exponent). -/
def parseNumber (cs : List Char) : Option (String × List Char) :=
  let (negPart, cs1) :=
    match cs with
    | '-' :: rest => (['-'], rest)
    | _ => ([], cs)
  let (ints, cs2) := parseDigits cs1
  if ints.isEmpty then none
  else if 2 ≤ ints.length && ints.head? == some '0' then none
  else
    match cs2 with
    | '.' :: rest =>
      let (fs, r) := parseDigits rest
      if fs.isEmpty then none
      else parseExpPart (negPart ++ ints ++ '.' :: fs) r
    | _ => parseExpPart (negPart ++ ints) cs2

mutual

/-- Parse one JSON value (fuel-indexed recursive descent). -/
def parseVal : Nat → List Char → Option (Json × List Char)
  | 0, _ => none
  | fuel + 1, cs =>
    match skipWs cs with
    | 'n' :: 'u' :: 'l' :: 'l' :: rest => some (.null, rest)
    | 't' :: 'r' :: 'u' :: 'e' :: rest => some (.bool true, rest)
    | 'f' :: 'a' :: 'l' :: 's' :: 'e' :: rest => some (.bool false, rest)
    | '"' :: rest => (parseStringAux rest).map fun p => (.str (String.mk p.1), p.2)
    | '[' :: rest =>
      (match skipWs rest with
       | ']' :: rest2 => some (.arr .nil, rest2)
       | cs2 => (parseElems fuel cs2).map fun (p : JsonList × List Char) => (.arr p.1, p.2))
    | '{' :: rest =>
      (match skipWs rest with
       | '}' :: rest2 => some (.obj .nil, rest2)
       | cs2 => (parseFieldsAux fuel cs2).map fun (p : JsonFields × List Char) => (.obj p.1, p.2))
    | cs1 => (parseNumber cs1).map fun p => (.num p.1, p.2)

/-- Parse the elements of a non-empty JSON array, including the closing
bracket. -/
def parseElems : Nat → List Char → Option (JsonList × List Char)
  | 0, _ => none
  | fuel + 1, cs =>
    (parseVal fuel cs).bind fun (p : Json × List Char) =>
      match skipWs p.2 with
      | ',' :: rest2 => (parseElems fuel rest2).map fun (q : JsonList × List Char) => (.cons p.1 q.1, q.2)
      | ']' :: rest2 => some (.cons p.1 .nil, rest2)
      | _ => none

/-- Parse the fields of a non-empty JSON object, including the closing
brace. -/
def parseFieldsAux : Nat → List Char → Option (JsonFields × List Char)
  | 0, _ => none
  | fuel + 1, cs =>
    match skipWs cs with
    | '"' :: rest =>
      (parseStringAux rest).bind fun kp =>
        match skipWs kp.2 with
        | ':' :: rest2 =>
          (parseVal fuel rest2).bind fun (vp : Json × List Char) =>
            match skipWs vp.2 with
            | ',' :: rest4 =>
              (parseFieldsAux fuel rest4).map fun (q : JsonFields × List Char) =>
                (.cons (String.mk kp.1) vp.1 q.1, q.2)
            | '}' :: rest4 => some (.cons (String.mk kp.1) vp.1 .nil, rest4)
            | _ => none
        | _ => none
    | _ => none

end

/-- `JSON.parse`: the whole input (up to trailing whitespace) must be a
single JSON value; `none` models the thrown `SyntaxError`. -/
def parseJson (s : String) : Option Json :=
  match parseVal (2 * s.length + 2) s.toList with
  | some (v, rest) => if skipWs rest = [] then some v else none
  | none => none

/-- Index of the first occurrence of a character. -/
def firstIdxOf (c : Char) : List Char → Option Nat
  | [] => none
  | x :: xs => if x = c then some 0 else (firstIdxOf c xs).map (· + 1)

/-- Index of the last occurrence of a character. -/
def lastIdxOf (c : Char) (cs : List Char) : Option Nat :=
  match firstIdxOf c cs.reverse with
  | some i => some (cs.length - 1 - i)
  | none => none

/-- The match of the greedy dot-all pattern used in `gemini.js`
(`/\x7b.*\x7d/s`, resp. `/\[.*\]/s`): the span from the first opening
delimiter to the last closing delimiter, when the former precedes the
latter; `none` models a failed match. -/
def regexSpanGreedy (ob cb : Char) (text : String) : Option String :=
  let cs := text.toList
  match firstIdxOf ob cs, lastIdxOf cb cs with
  | some i, some j =>
    if i < j then some (String.mk ((cs.drop i).take (j - i + 1))) else none
  | _, _ => none

/-- If `pat` is a prefix of `cs`, the remainder of `cs` past it. -/
def dropPrefixChars : List Char → List Char → Option (List Char)
  | [], rest => some rest
  | _ :: _, [] => none
  | p :: ps, c :: rest => if p = c then dropPrefixChars ps rest else none

/-- Replace every non-overlapping occurrence of `pat` (non-empty) by
`rep`, scanning left to right; `fuel` bounds the scan by the input
length. -/
def replaceAllGo (pat rep : List Char) : Nat → List Char → List Char
  | _, [] => []
  | 0, cs => cs
  | fuel + 1, c :: cs =>
    match dropPrefixChars pat (c :: cs) with
    | some rest => rep ++ replaceAllGo pat rep fuel rest
    | none => c :: replaceAllGo pat rep fuel cs

/-- JavaScript `s.replace(/pat/g, rep)` for a literal pattern. -/
def replaceAllStr (s pat rep : String) : String :=
  if pat = "" then s
  else String.mk (replaceAllGo pat.toList rep.toList s.length s.toList)

/-- `text.replace(/```json/g, '').replace(/```/g, '')` — the code-fence
stripping applied to fallback content. -/
def stripFences (s : String) : String :=
  replaceAllStr (replaceAllStr s "```json" "") "```" ""

/-- The fallback structure of `generateExplanation` (gemini.js lines
76–82): a single synthetic card holding the fence-stripped raw text. -/
def explanationFallback (topic text : String) : Json :=
  jobj [("cleanTopic", .str topic),
        ("cards", jarr [jobj [("title", .str "Explanation"),
                              ("content", .str (stripFences text))]])]

/-- The post-processing of `generateExplanation` (gemini.js lines 58–83)
applied to the raw model text: extract the greedy `\x7b...\x7d` span (or
use the whole text), `JSON.parse` it, keep an object with truthy
`cleanTopic` and an array `cards`, wrap a bare array, and otherwise fall
back to a single synthetic card. -/
def generateExplanationText (topic text : String) : Json :=
  let jsonString := (regexSpanGreedy '{' '}' text).getD text
  match parseJson jsonString with
  | some data =>
    if (match jget data "cleanTopic" with
        | some v => truthy v
        | none => false) && isArrayOpt (jget data "cards") then
      data
    else
      match data with
      | .arr xs => jobj [("cleanTopic", .str topic), ("cards", .arr xs)]
      | _ => explanationFallback topic text
  | none => explanationFallback topic text

/-- The fallback quiz of `generateQuizQuestions` (gemini.js lines
128–134): one placeholder true/false question. -/
def quizFallback (topic : String) : Json :=
  jarr [jobj [("question", .str ("What is the main concept of " ++ topic ++ "?")),
              ("type", .str "true_false"),
              ("options", jarr [.str "True", .str "False"]),
              ("correctAnswer", .str "True"),
              ("explanation", .str "This is a basic understanding check.")]]

/-- The post-processing of `generateQuizQuestions` (gemini.js lines
117–135) applied to the raw model text: extract the greedy `[...]` span
(or use the whole text), `JSON.parse` it, return a non-empty array as is
— with no validation of its entries — and otherwise fall back to the
placeholder question. -/
def generateQuizQuestions (topic raw : String) : Json :=
  let jsonString := (regexSpanGreedy '[' ']' raw).getD raw
  match parseJson jsonString with
  | some (.arr (.cons q tl)) => .arr (.cons q tl)
  | some _ => quizFallback topic
  | none => quizFallback topic

/-- The QuizQuestion invariant for one parsed question: its
`correctAnswer` is a member of its `options`. -/
def correctAnswerInOptions (q : Json) : Bool :=
  match jget q "correctAnswer", jget q "options" with
  | some ca, some (.arr opts) => opts.elemJ ca
  | _, _ => false

/-- The invariant over a whole questions value: it is an array and every
entry satisfies `correctAnswerInOptions`. -/
def allQuestionsOk : Json → Bool
  | .arr qs => go qs
  | _ => false
where
  go : JsonList → Bool
    | .nil => true
    | .cons q tl => correctAnswerInOptions q && go tl

/-- `TIMEOUT_MS` of `callGeminiAPI` (gemini.js line 4). -/
def TIMEOUT_MS : Nat := 30000

/-- `MAX_RETRIES` of `callGeminiAPI` (gemini.js line 3). -/
def MAX_RETRIES : Nat := 1

/-- The 1-second delay before the retry (gemini.js line 36). -/
def RETRY_DELAY_MS : Nat := 1000

/-- Outcome of one `fetch('/api/gemini', ...)` attempt.  `timeout` is the
`AbortError` fired by the 30-second timer; `networkFail` is a rejection
whose message contains `Failed to fetch`; `httpError` is a response with
`response.ok` false, carrying the HTTP status text and the `details`
field of the proxy's JSON error body; `ok` is an HTTP 200 whose JSON body
has the given `text` field. -/
inductive AttemptOutcome where
  | timeout
  | networkFail
  | httpError (statusText : String) (details : String)
  | ok (text : String)
deriving DecidableEq

/-- The distinguished error categories thrown by `callGeminiAPI`. -/
inductive CallError where
  | timeoutError
  | networkError
  | apiError (statusText : String)
deriving DecidableEq

/-- The `message` of the JavaScript `Error` thrown for each category
(gemini.js lines 23, 40, 45). -/
def CallError.message : CallError → String
  | .timeoutError => "Request timeout. The AI service is taking too long to respond. Please try again."
  | .networkError => "Network error. Please check your internet connection."
  | .apiError statusText => "API Error: " ++ statusText

/-- Decidable equality for `Except`, used to state concrete evaluations
of call results. -/
instance {α β : Type} [DecidableEq α] [DecidableEq β] : DecidableEq (Except α β) :=
  fun a b =>
    match a, b with
    | .ok x, .ok y =>
      if h : x = y then isTrue (by rw [h])
      else isFalse (by intro he; injection he; contradiction)
    | .error x, .error y =>
      if h : x = y then isTrue (by rw [h])
      else isFalse (by intro he; injection he; contradiction)
    | .ok _, .error _ => isFalse (by intro he; exact Except.noConfusion he)
    | .error _, .ok _ => isFalse (by intro he; exact Except.noConfusion he)

/-- Observable result of a `callGeminiAPI` invocation: the returned text
or thrown error, the elapsed wall-clock milliseconds (a timing-out
attempt costs `TIMEOUT_MS`, the inter-attempt delay costs
`RETRY_DELAY_MS`, other outcomes are counted as immediate), and the
number of fetch attempts made. -/
structure CallTrace where
  result : Except CallError String
  elapsedMs : Nat
  attempts : Nat
deriving DecidableEq

/-- Recursion core of `callGeminiAPI` (gemini.js lines 2–51).  `oracle n`
is the outcome of the fetch on attempt number `n`; `retriesLeft` is
`MAX_RETRIES - retryCount`, so the guard `retryCount < MAX_RETRIES` of
line 34 is exactly `retriesLeft > 0`. -/
def callGeminiAPIGo (oracle : Nat → AttemptOutcome) (retryCount retriesLeft : Nat) :
    CallTrace :=
  match oracle retryCount, retriesLeft with
    | .ok text, _ => ⟨.ok text, 0, 1⟩
    | .httpError statusText _, _ => ⟨.error (.apiError statusText), 0, 1⟩
    | .networkFail, _ => ⟨.error .networkError, 0, 1⟩
    | .timeout, r + 1 =>
      let t := callGeminiAPIGo oracle (retryCount + 1) r
      ⟨t.result, TIMEOUT_MS + RETRY_DELAY_MS + t.elapsedMs, t.attempts + 1⟩
    | .timeout, 0 => ⟨.error .timeoutError, TIMEOUT_MS, 1⟩

/-- `callGeminiAPI(action, payload, retryCount)` for a fixed action and
payload, the sequence of fetch outcomes given by `oracle`. -/
def callGeminiAPI (oracle : Nat → AttemptOutcome) (retryCount : Nat) : CallTrace :=
  callGeminiAPIGo oracle retryCount (MAX_RETRIES - retryCount)

/-- `generateExplanation(topic)` (gemini.js lines 53–88) given the result
of its `callGeminiAPI` call: normalize the returned text, re-throw a call
failure. -/
def generateExplanation (topic : String) (call : Except CallError String) :
    Except CallError Json :=
  match call with
  | .ok text => .ok (generateExplanationText topic text)
  | .error e => .error e

/-- The generation step as observed by `fetchExplanation`: a thrown
`Error` is seen through its `message` string. -/
def generationOutcome (topic : String) (call : Except CallError String) :
    Except String Json :=
  match generateExplanation topic call with
  | .ok j => .ok j
  | .error e => .error e.message

/-- One row of the Supabase `history` table.  `query` holds whatever
value was written to that column (the clean title for generated entries),
`content` the stored cards value, and `created_at` the timestamp, as an
abstract tick. -/
structure HistoryEntry where
  id : Nat
  user_id : String
  query : Json
  content : Json
  created_at : Nat
deriving DecidableEq

/-- Insert an entry into a newest-first list, before the first entry that
is not strictly newer (a stable descending insertion). -/
def insertByNewest (e : HistoryEntry) : List HistoryEntry → List HistoryEntry
  | [] => [e]
  | x :: xs =>
    if x.created_at ≤ e.created_at then e :: x :: xs else x :: insertByNewest e xs

/-- Stable sort of the history rows by `created_at`, newest first. -/
def sortByNewest : List HistoryEntry → List HistoryEntry
  | [] => []
  | x :: xs => insertByNewest x (sortByNewest xs)

/-- The history rows ordered newest first — the recency order used by the
sidebar and by `maintainHistoryLimit` (`.order('created_at',
{ ascending: false })`, modelled as a stable descending sort). -/
def recencyOrder (store : List HistoryEntry) : List HistoryEntry :=
  sortByNewest store

/-- `maintainHistoryLimit` (Result.jsx lines 152–174): fetch all rows
(of every user) newest first and delete every row beyond the first 10.
The table keeps the surviving rows. -/
def maintainHistoryLimit (store : List HistoryEntry) : List HistoryEntry :=
  let data := recencyOrder store
  if data.length > 10 then
    let itemsToDelete := (data.drop 10).map (fun e => e.id)
    store.filter (fun e => !(decide (e.id ∈ itemsToDelete)))
  else store

/-- `saveToHistory(query, content)` (Result.jsx lines 176–221) run with
authenticated user `user`, at time `now`, with `fid` the id the database
would assign to a fresh row: a guest saves nothing; otherwise the first
row matching this user and query is overwritten (timestamp bumped), or a
new row is appended, and then the limit is enforced. -/
def saveToHistory (user : Option String) (query content : Json) (now fid : Nat)
    (store : List HistoryEntry) : List HistoryEntry :=
  match user with
  | none => store
  | some uid =>
    match store.find? (fun e => decide (e.query = query) && decide (e.user_id = uid)) with
    | some existing =>
      maintainHistoryLimit (store.map (fun e =>
        if e.id = existing.id then { e with created_at := now, content := content } else e))
    | none =>
      maintainHistoryLimit (store ++ [⟨fid, uid, query, content, now⟩])

/-- The observable end state of one `fetchExplanation` run: `ready` with
the cards value and display title, or `failed` with the error banner
text. -/
inductive SessionOutcome where
  | ready (cards : Json) (title : Json)
  | failed (message : String)
deriving DecidableEq

/-- The error banner text (Result.jsx line 127). -/
def errorText (m : String) : String :=
  "Error: " ++ (if m = "" then "Unknown error" else m) ++ ". Check console for details."

/-- The cache-miss path of `fetchExplanation` (Result.jsx lines 105–130):
run generation, split the result into cards and clean title handling both
the bare-array and the object format, save under the clean title, and
report `ready`; a thrown error reports `failed`.  Returns the outcome,
the updated history table and whether the Generation Client was
invoked. -/
def generatePath (user : Option String) (query : String) (store : List HistoryEntry)
    (gen : Except String Json) (now fid : Nat) :
    SessionOutcome × List HistoryEntry × Bool :=
  match gen with
  | .error m => (.failed (errorText m), store, true)
  | .ok result =>
    let split : Json × Json :=
      match result with
      | .arr xs => (.arr xs, .str query)
      | _ =>
        if truthy result then
          match jget result "cards" with
          | some v =>
            if truthy v then
              (v, match jget result "cleanTopic" with
                  | some t => if truthy t then t else .str query
                  | none => .str query)
            else (jarr [], .str query)
          | none => (jarr [], .str query)
        else (jarr [], .str query)
    (.ready split.1 split.2, saveToHistory user split.2 split.1 now fid store, true)

/-- `fetchExplanation` (Result.jsx lines 53–134): look the raw query up
in the history table (exact string match on the `query` column, not
filtered by user); on a hit with truthy content reuse the stored cards
and return early; otherwise generate. -/
def fetchExplanation (user : Option String) (query : String) (store : List HistoryEntry)
    (gen : Except String Json) (now fid : Nat) :
    SessionOutcome × List HistoryEntry × Bool :=
  match store.find? (fun e => decide (e.query = Json.str query)) with
  | some cached =>
    if truthy cached.content then (.ready cached.content cached.query, store, false)
    else generatePath user query store gen now fid
  | none => generatePath user query store gen now fid

/-- The slice of the `Result` component state touched by
`handleFeedbackSubmit` (Result.jsx lines 20–27). -/
structure ResultState where
  cards : List Json
  currentIndex : Nat
  loading : Bool
  generating : Bool
  showFeedback : Bool
deriving DecidableEq

/-- `handleFeedbackSubmit('confused', text)` (Result.jsx lines 266–288)
given the outcome of its `generateClarification` call, observed after the
`finally` block: on success the clarification card is appended after the
current cards, the feedback prompt closes and the index advances; on
failure only the spinner flag is reset.  The `generating` spinner is set
during the call and cleared by `finally`; `loading` is never touched. -/
def handleFeedbackSubmitConfused (s : ResultState) (gen : Except String Json) :
    ResultState :=
  match gen with
  | .ok clarification =>
    { s with cards := s.cards ++ [clarification],
             showFeedback := false,
             currentIndex := s.currentIndex + 1,
             generating := false }
  | .error _ => { s with generating := false }

/-- The metadata of a `File` object as read by `uploadAvatar`. -/
structure FileMeta where
  name : String
  size : Nat
  type : String
deriving DecidableEq

/-- The resolved value of `uploadAvatar` (storage.js returns
`{ url, path, error }`, with `error: null` on success). -/
structure UploadResult where
  url : Option String
  path : Option String
  error : Option String
deriving DecidableEq

/-- `MAX_FILE_SIZE` of storage.js line 8. -/
def MAX_FILE_SIZE : Nat := 2 * 1024 * 1024

/-- `validTypes` of storage.js line 25. -/
def validTypes : List String := ["image/jpeg", "image/png", "image/webp"]

/-- `uploadAvatar(userId, file)` (storage.js lines 17–60).  `nowMs` is
`Date.now()`; `storageUpload path` is the error of the Supabase storage
upload call for that path (`none` on success); `publicUrlOf` is
`getPublicUrl`.  Every throw is caught and returned as
`{ url: null, path: null, error }`; the boolean reports whether the
storage upload was attempted. -/
def uploadAvatar (userId : String) (file : FileMeta) (nowMs : Nat)
    (storageUpload : String → Option String) (publicUrlOf : String → String) :
    UploadResult × Bool :=
  if file.size > MAX_FILE_SIZE then
    (⟨none, none, some "File size must be less than 2MB"⟩, false)
  else if !(decide (file.type ∈ validTypes)) then
    (⟨none, none, some "File must be an image (JPEG, PNG, or WebP)"⟩, false)
  else
    let fileExt := ((file.name.splitOn ".").getLast?).getD ""
    let fileName := userId ++ "-" ++ toString nowMs ++ "." ++ fileExt
    let filePath := userId ++ "/" ++ fileName
    match storageUpload filePath with
    | some err => (⟨none, none, some err⟩, true)
    | none => (⟨some (publicUrlOf filePath), some filePath, none⟩, true)

/-- The raw model text of the malformed-response scenario of claim C1:
a fenced JSON array wrapped in commentary. -/
def c1raw : String := "Sure! ```json\n[\x7b\"title\":\"A\",\"content\":\"B\"\x7d]\n```"

/-- First stored entry of the C3 counterexample: topic `T`, touched at
tick 1. -/
def c3e1 : HistoryEntry := ⟨1, "u", Json.str "T", jarr [Json.str "c"], 1⟩

/-- Second stored entry of the C3 counterexample: topic `U`, touched at
tick 5, hence at the front of the recency order. -/
def c3e2 : HistoryEntry := ⟨2, "u", Json.str "U", jarr [Json.str "d"], 5⟩

/-- The C4 scenario: identity `B` generates 15 distinct topics (ticks 1
to 15), then identity `A` generates one topic at tick 16.  Row ids equal
ticks. -/
def c4sim : List HistoryEntry :=
  let afterB := (List.range 15).foldl
    (fun st i =>
      saveToHistory (some "B") (.str ("b" ++ toString (i + 1))) (jarr []) (i + 1) (i + 1) st)
    []
  saveToHistory (some "A") (.str "a1") (jarr []) 16 16 afterB

/-- A concrete 12-row table with distinct ids, used to witness the C4
bound. -/
def c4wStore : List HistoryEntry :=
  (List.range 12).map (fun i => ⟨i, "u", Json.str (toString i), jarr [], i⟩)

/-- Raw quiz text whose single question has `correctAnswer` `E` outside
its options `A`–`D` (claim C5 failing input). -/
def c5raw : String :=
  "[\x7b\"question\":\"Q\",\"type\":\"multiple_choice\",\"options\":[\"A\",\"B\",\"C\",\"D\"],\"correctAnswer\":\"E\",\"explanation\":\"x\"\x7d]"

/-- The parsed form of the single question of `c5raw`. -/
def c5q : Json :=
  jobj [("question", .str "Q"), ("type", .str "multiple_choice"),
        ("options", jarr [.str "A", .str "B", .str "C", .str "D"]),
        ("correctAnswer", .str "E"), ("explanation", .str "x")]

/-- A history entry owned by identity `A` for topic `T` (claim C6: it is
returned to guests and to other users alike). -/
def c6entryA : HistoryEntry := ⟨1, "A", Json.str "T", jarr [Json.str "c"], 3⟩

/-- A model response that passes the shape check of `generateExplanation`
with an empty `cards` array (claim C7 counterexample input). -/
def c7raw : String := "\x7b\"cleanTopic\":\"X\",\"cards\":[]\x7d"

/-- A one-card session state used to witness claim C9. -/
def c9state : ResultState := ⟨[Json.str "c0"], 0, false, false, true⟩

/-- Claim C1 (counterexample).  On the raw text
`"Sure! ```json\n[...]\n```"` the object-shaped extraction of
`generateExplanation` picks the inner `\x7b...\x7d` span, the parsed object
fails the shape check, and the result is the fallback synthetic card —
not the claimed parsed card list `[ \x7b title: A, content: B \x7d ]`. -/
theorem c1_counterexample :
    generateExplanationText "T" c1raw =
      jobj [("cleanTopic", .str "T"),
            ("cards", jarr [jobj [("title", .str "Explanation"),
                                  ("content", .str "Sure! \n[\x7b\"title\":\"A\",\"content\":\"B\"\x7d]\n")]])] ∧
    jget (generateExplanationText "T" c1raw) "cards" ≠
      some (jarr [jobj [("title", .str "A"), ("content", .str "B")]]) := by
  decide

/-- Claim C1 (amended).  Normalizing that raw text yields, for every
topic, the single fallback synthetic card whose content is the raw text
with the code-fence markers stripped, because the extractor targets an
object span and the extracted object fails the expected-shape check. -/
theorem c1_fenced_array_falls_back (topic : String) :
    generateExplanationText topic c1raw = explanationFallback topic c1raw := by
  rfl

/-- Unfolding equation of `callGeminiAPIGo` for a successful attempt. -/
theorem callGo_base_ok (oracle : Nat → AttemptOutcome) (rc rl : Nat) (t : String)
    (h : oracle rc = .ok t) : callGeminiAPIGo oracle rc rl = ⟨.ok t, 0, 1⟩ := by
  rw [callGeminiAPIGo.eq_def, h]

/-- Unfolding equation of `callGeminiAPIGo` for a network failure. -/
theorem callGo_base_net (oracle : Nat → AttemptOutcome) (rc rl : Nat)
    (h : oracle rc = .networkFail) :
    callGeminiAPIGo oracle rc rl = ⟨.error .networkError, 0, 1⟩ := by
  rw [callGeminiAPIGo.eq_def, h]

/-- Unfolding equation of `callGeminiAPIGo` for a non-2xx response. -/
theorem callGo_base_http (oracle : Nat → AttemptOutcome) (rc rl : Nat) (st d : String)
    (h : oracle rc = .httpError st d) :
    callGeminiAPIGo oracle rc rl = ⟨.error (.apiError st), 0, 1⟩ := by
  rw [callGeminiAPIGo.eq_def, h]

/-- Unfolding equation of `callGeminiAPIGo` for a timeout with a retry
remaining. -/
theorem callGo_timeout_step (oracle : Nat → AttemptOutcome) (rc r : Nat)
    (h : oracle rc = .timeout) :
    callGeminiAPIGo oracle rc (r + 1) =
      ⟨(callGeminiAPIGo oracle (rc + 1) r).result,
       TIMEOUT_MS + RETRY_DELAY_MS + (callGeminiAPIGo oracle (rc + 1) r).elapsedMs,
       (callGeminiAPIGo oracle (rc + 1) r).attempts + 1⟩ := by
  rw [callGeminiAPIGo.eq_def, h]

/-- Unfolding equation of `callGeminiAPIGo` for a timeout with no retry
remaining. -/
theorem callGo_timeout_last (oracle : Nat → AttemptOutcome) (rc : Nat)
    (h : oracle rc = .timeout) :
    callGeminiAPIGo oracle rc 0 = ⟨.error .timeoutError, TIMEOUT_MS, 1⟩ := by
  rw [callGeminiAPIGo.eq_def, h]

/-- Claim C2 (counterexample).  When both attempts time out the caller
fails after 61000 ms — the 31000 ms the claim allows plus one further
full 30-second timeout — not after roughly 31 seconds. -/
theorem c2_counterexample :
    (callGeminiAPI (fun _ => .timeout) 0).elapsedMs = 61000 ∧
    (callGeminiAPI (fun _ => .timeout) 0).result = .error .timeoutError ∧
    31000 + 30000 ≤ (callGeminiAPI (fun _ => .timeout) 0).elapsedMs := by
  decide

/-- Claim C2 (amended).  A call applies the 30-second timeout; on the
first timeout it retries exactly once after a 1-second delay, so a
doubly timing-out call fails with the Timeout error after roughly 61
seconds (not 31) and at most two attempts are ever made; a retry that
succeeds returns after roughly 31 seconds; a non-timeout network failure
fails with the NetworkError immediately, with no retry. -/
theorem c2_timeout_retry_contract (oracle : Nat → AttemptOutcome) :
    (oracle 0 = .timeout → oracle 1 = .timeout →
      callGeminiAPI oracle 0 = ⟨.error .timeoutError, 61000, 2⟩) ∧
    (∀ t, oracle 0 = .timeout → oracle 1 = .ok t →
      callGeminiAPI oracle 0 = ⟨.ok t, 31000, 2⟩) ∧
    (oracle 0 = .networkFail → callGeminiAPI oracle 0 = ⟨.error .networkError, 0, 1⟩) ∧
    (∀ st d, oracle 0 = .httpError st d →
      callGeminiAPI oracle 0 = ⟨.error (.apiError st), 0, 1⟩) ∧
    (callGeminiAPI oracle 0).attempts ≤ 2 := by
  have hcall : callGeminiAPI oracle 0 = callGeminiAPIGo oracle 0 1 := rfl
  refine ⟨?_, ?_, ?_, ?_, ?_⟩
  · intro h0 h1
    rw [hcall, callGo_timeout_step oracle 0 0 h0, callGo_timeout_last oracle 1 h1]
    simp [TIMEOUT_MS, RETRY_DELAY_MS]
  · intro t h0 h1
    rw [hcall, callGo_timeout_step oracle 0 0 h0, callGo_base_ok oracle 1 0 t h1]
    simp [TIMEOUT_MS, RETRY_DELAY_MS]
  · intro h0
    rw [hcall, callGo_base_net oracle 0 1 h0]
  · intro st d h0
    rw [hcall, callGo_base_http oracle 0 1 st d h0]
  · rw [hcall]
    cases h0 : oracle 0 with
    | timeout =>
      rw [callGo_timeout_step oracle 0 0 h0]
      cases h1 : oracle 1 with
      | timeout => rw [callGo_timeout_last oracle 1 h1]
      | networkFail => rw [callGo_base_net oracle 1 0 h1]
      | httpError st d => rw [callGo_base_http oracle 1 0 st d h1]
      | ok t => rw [callGo_base_ok oracle 1 0 t h1]
    | networkFail => rw [callGo_base_net oracle 0 1 h0]; exact Nat.le_succ 1
    | httpError st d => rw [callGo_base_http oracle 0 1 st d h0]; exact Nat.le_succ 1
    | ok t => rw [callGo_base_ok oracle 0 1 t h0]; exact Nat.le_succ 1

/-- Witness for claim C2: the contract evaluated on concrete outcome
sequences (double timeout, timeout then success, network failure). -/
theorem c2_timeout_retry_contract_witness :
    callGeminiAPI (fun _ => .timeout) 0 = ⟨.error .timeoutError, 61000, 2⟩ ∧
    callGeminiAPI (fun n => match n with | 0 => .timeout | _ => .ok "ok") 0 =
      ⟨.ok "ok", 31000, 2⟩ ∧
    callGeminiAPI (fun _ => .networkFail) 0 = ⟨.error .networkError, 0, 1⟩ :=
  ⟨(c2_timeout_retry_contract (fun _ => .timeout)).1 rfl rfl,
   (c2_timeout_retry_contract (fun n => match n with | 0 => .timeout | _ => .ok "ok")).2.1
     "ok" rfl rfl,
   (c2_timeout_retry_contract (fun _ => .networkFail)).2.2.1 rfl⟩

/-- Claim C5 (code bug).  `generateQuizQuestions` returns a successfully
parsed non-empty array without validating its entries: on `c5raw` it
returns a question whose `correctAnswer` `E` is not among its options,
violating the QuizQuestion invariant the specification states; only the
fallback placeholder question satisfies it by construction. -/
theorem c5_unvalidated_quiz :
    generateQuizQuestions "T" c5raw = jarr [c5q] ∧
    correctAnswerInOptions c5q = false ∧
    allQuestionsOk (quizFallback "T") = true := by
  decide

/-- Claim C8 (counterexample).  On a non-2xx response the thrown error
message is built from the HTTP status text, is identical whatever the
body's `details` field holds, and differs from that `details` value —
the proxy's `details` is not surfaced. -/
theorem c8_counterexample :
    (callGeminiAPI (fun _ => .httpError "Internal Server Error" "quota exceeded") 0).result =
      .error (.apiError "Internal Server Error") ∧
    CallError.message (.apiError "Internal Server Error") = "API Error: Internal Server Error" ∧
    CallError.message (.apiError "Internal Server Error") ≠ "quota exceeded" ∧
    callGeminiAPI (fun _ => .httpError "Internal Server Error" "quota exceeded") 0 =
      callGeminiAPI (fun _ => .httpError "Internal Server Error" "other details") 0 := by
  decide

/-- Claim C8 (amended).  On a non-2xx HTTP response the call fails at
once with the server-error category whose message is `API Error: ` plus
the HTTP status text; the response body (and hence its `details` field)
is never read, so the failure is independent of it. -/
theorem c8_server_error_statusText (st d1 d2 : String) :
    callGeminiAPI (fun _ => .httpError st d1) 0 = ⟨.error (.apiError st), 0, 1⟩ ∧
    callGeminiAPI (fun _ => .httpError st d1) 0 = callGeminiAPI (fun _ => .httpError st d2) 0 ∧
    CallError.message (.apiError st) = "API Error: " ++ st :=
  ⟨rfl, rfl, rfl⟩

/-- Claim C9 (confirmed).  Appending a clarification to a Ready session
adds exactly one card at the end, leaves every previously present card
at its position, never touches the session-level `loading` flag, and
ends with the local `generating` spinner cleared. -/
theorem c9_append_clarification (s : ResultState) (clar : Json) :
    (handleFeedbackSubmitConfused s (.ok clar)).cards = s.cards ++ [clar] ∧
    (handleFeedbackSubmitConfused s (.ok clar)).cards.length = s.cards.length + 1 ∧
    (∀ i, i < s.cards.length →
      (handleFeedbackSubmitConfused s (.ok clar)).cards[i]? = s.cards[i]?) ∧
    (handleFeedbackSubmitConfused s (.ok clar)).loading = s.loading ∧
    (handleFeedbackSubmitConfused s (.ok clar)).generating = false := by
  refine ⟨rfl, by simp [handleFeedbackSubmitConfused], ?_, rfl, rfl⟩
  intro i hi
  simp [handleFeedbackSubmitConfused, List.getElem?_append_left hi]

/-- Witness for claim C9: the append evaluated on a concrete one-card
session. -/
theorem c9_append_clarification_witness :
    (handleFeedbackSubmitConfused c9state (.ok (Json.str "k"))).cards =
      [Json.str "c0", Json.str "k"] ∧
    (handleFeedbackSubmitConfused c9state (.ok (Json.str "k"))).cards[0]? =
      c9state.cards[0]? ∧
    (handleFeedbackSubmitConfused c9state (.ok (Json.str "k"))).loading = c9state.loading :=
  ⟨(c9_append_clarification c9state (Json.str "k")).1,
   (c9_append_clarification c9state (Json.str "k")).2.2.1 0 (by decide),
   (c9_append_clarification c9state (Json.str "k")).2.2.2.1⟩

/-- Claim C10 (confirmed).  For every user id and file, when the file
exceeds 2 MiB or its type is not JPEG/PNG/WebP, `uploadAvatar` resolves
to `\x7b url: null, path: null, error ≠ null \x7d` without attempting the
storage upload; the embedding is a total function, reflecting that every
throw is caught and returned. -/
theorem c10_upload_validation (userId : String) (file : FileMeta) (nowMs : Nat)
    (storageUpload : String → Option String) (publicUrlOf : String → String)
    (h : file.size > MAX_FILE_SIZE ∨ ¬ file.type ∈ validTypes) :
    (uploadAvatar userId file nowMs storageUpload publicUrlOf).1.url = none ∧
    (uploadAvatar userId file nowMs storageUpload publicUrlOf).1.path = none ∧
    (uploadAvatar userId file nowMs storageUpload publicUrlOf).1.error ≠ none ∧
    (uploadAvatar userId file nowMs storageUpload publicUrlOf).2 = false := by
  rcases h with h | h
  · simp [uploadAvatar, h]
  · by_cases hs : file.size > MAX_FILE_SIZE
    · simp [uploadAvatar, hs]
    · simp [uploadAvatar, hs, h]

/-- Witness for claim C10: an oversized PNG is rejected without an
upload attempt. -/
theorem c10_upload_validation_witness :
    (⟨"a.png", 2097153, "image/png"⟩ : FileMeta).size > MAX_FILE_SIZE ∧
    (uploadAvatar "u1" ⟨"a.png", 2097153, "image/png"⟩ 7 (fun _ => none) (fun p => p)).1.error ≠
      none ∧
    (uploadAvatar "u1" ⟨"a.png", 2097153, "image/png"⟩ 7 (fun _ => none) (fun p => p)).2 =
      false :=
  ⟨by decide,
   (c10_upload_validation "u1" ⟨"a.png", 2097153, "image/png"⟩ 7 (fun _ => none) (fun p => p)
     (Or.inl (by decide))).2.2.1,
   (c10_upload_validation "u1" ⟨"a.png", 2097153, "image/png"⟩ 7 (fun _ => none) (fun p => p)
     (Or.inl (by decide))).2.2.2⟩

/-- Inserting into a newest-first list permutes consing. -/
theorem insertByNewest_perm (e : HistoryEntry) (l : List HistoryEntry) :
    List.Perm (insertByNewest e l) (e :: l) := by
  induction l with
  | nil => exact List.Perm.refl _
  | cons x xs ih =>
    rw [insertByNewest]
    by_cases h : x.created_at ≤ e.created_at
    · rw [if_pos h]
    · rw [if_neg h]
      exact (ih.cons x).trans (List.Perm.swap e x xs)

/-- The recency sort is a permutation of the table rows. -/
theorem sortByNewest_perm (l : List HistoryEntry) : List.Perm (sortByNewest l) l := by
  induction l with
  | nil => exact List.Perm.refl _
  | cons x xs ih =>
    rw [sortByNewest]
    exact (insertByNewest_perm x (sortByNewest xs)).trans (ih.cons x)

/-- Insertion preserves the newest-first ordering. -/
theorem insertByNewest_pairwise (e : HistoryEntry) (l : List HistoryEntry)
    (h : l.Pairwise (fun a b => b.created_at ≤ a.created_at)) :
    (insertByNewest e l).Pairwise (fun a b => b.created_at ≤ a.created_at) := by
  induction l with
  | nil => simp [insertByNewest]
  | cons x xs ih =>
    rw [insertByNewest]
    rcases List.pairwise_cons.mp h with ⟨hx, hxs⟩
    by_cases hc : x.created_at ≤ e.created_at
    · rw [if_pos hc]
      refine List.pairwise_cons.mpr ⟨?_, h⟩
      intro y hy
      rcases List.mem_cons.mp hy with rfl | hy2
      · exact hc
      · exact le_trans (hx y hy2) hc
    · rw [if_neg hc]
      refine List.pairwise_cons.mpr ⟨?_, ih hxs⟩
      intro y hy
      have hy2 := (insertByNewest_perm e xs).mem_iff.mp hy
      rcases List.mem_cons.mp hy2 with rfl | hy3
      · omega
      · exact hx y hy3

/-- The recency sort is ordered newest first. -/
theorem sortByNewest_pairwise (l : List HistoryEntry) :
    (sortByNewest l).Pairwise (fun a b => b.created_at ≤ a.created_at) := by
  induction l with
  | nil => simp [sortByNewest]
  | cons x xs ih =>
    rw [sortByNewest]
    exact insertByNewest_pairwise x _ ih

/-- With at most 10 rows the limit pass deletes nothing. -/
theorem maintainHistoryLimit_eq_of_length_le (l : List HistoryEntry)
    (h : l.length ≤ 10) : maintainHistoryLimit l = l := by
  have hlen : (recencyOrder l).length = l.length := (sortByNewest_perm l).length_eq
  simp only [maintainHistoryLimit]
  rw [if_neg]
  omega

/-- Claim C3 (counterexample).  A cache hit returns the stored cards and
leaves the history table untouched: the hit entry keeps its old
timestamp 1 and the other, newer entry stays at the front of the recency
order — the hit does not refresh the timestamp nor move the entry to the
front. -/
theorem c3_counterexample :
    fetchExplanation (some "u") "T" [c3e1, c3e2] (.error "boom") 10 99 =
      (.ready (jarr [Json.str "c"]) (Json.str "T"), [c3e1, c3e2], false) ∧
    (recencyOrder [c3e1, c3e2]).head? = some c3e2 ∧
    c3e1.created_at = 1 := by
  decide

/-- Claim C3 (amended).  Writing a session for topic `T` and identity `u`
into a table with no prior row for `T` and at most nine rows, then
immediately reading the same `T`, returns the written cards byte for
byte without invoking the Generation Client; the read, however, leaves
the table unchanged — the hit refreshes no timestamp. -/
theorem c3_cache_roundtrip (u T : String) (content : Json) (store : List HistoryEntry)
    (now fid now2 fid2 : Nat) (gen : Except String Json)
    (hfresh : ∀ e ∈ store, e.query ≠ Json.str T)
    (hlen : store.length ≤ 9)
    (htruthy : truthy content = true) :
    fetchExplanation (some u) T
        (saveToHistory (some u) (Json.str T) content now fid store) gen now2 fid2 =
      (.ready content (Json.str T),
       saveToHistory (some u) (Json.str T) content now fid store, false) := by
  have hfind1 : store.find?
      (fun e => decide (e.query = Json.str T) && decide (e.user_id = u)) = none := by
    rw [List.find?_eq_none]
    intro e he
    simp [hfresh e he]
  have hsave : saveToHistory (some u) (Json.str T) content now fid store =
      store ++ [⟨fid, u, Json.str T, content, now⟩] := by
    simp only [saveToHistory, hfind1]
    refine maintainHistoryLimit_eq_of_length_le _ ?_
    rw [List.length_append]
    simp
    omega
  have hfind2 : (store ++ [(⟨fid, u, Json.str T, content, now⟩ : HistoryEntry)]).find?
      (fun e => decide (e.query = Json.str T)) =
        some ⟨fid, u, Json.str T, content, now⟩ := by
    rw [List.find?_append]
    have h1 : store.find? (fun e => decide (e.query = Json.str T)) = none := by
      rw [List.find?_eq_none]
      intro e he
      simp [hfresh e he]
    rw [h1]
    simp [List.find?]
  rw [hsave]
  simp only [fetchExplanation, hfind2]
  simp [htruthy]

/-- Witness for claim C3: the round trip evaluated on an empty table and
a one-card content. -/
theorem c3_cache_roundtrip_witness :
    truthy (jarr [jobj [("title", .str "t"), ("content", .str "c")]]) = true ∧
    fetchExplanation (some "u") "T"
        (saveToHistory (some "u") (Json.str "T")
          (jarr [jobj [("title", .str "t"), ("content", .str "c")]]) 1 1 [])
        (.error "x") 2 2 =
      (.ready (jarr [jobj [("title", .str "t"), ("content", .str "c")]]) (Json.str "T"),
       saveToHistory (some "u") (Json.str "T")
         (jarr [jobj [("title", .str "t"), ("content", .str "c")]]) 1 1 [], false) :=
  ⟨by decide,
   c3_cache_roundtrip "u" "T" (jarr [jobj [("title", .str "t"), ("content", .str "c")]])
     [] 1 1 2 2 (.error "x") (by simp) (by simp) (by decide)⟩

/-- Claim C6 (counterexample).  The cache lookup is not scoped to the
authenticated identity: with identity `A`'s entry for topic `T` stored, a
guest lookup for `T` hits it (the Generation Client is not invoked,
contradicting that guest lookups always miss), and identity `B`'s lookup
returns `A`'s stored content. -/
theorem c6_counterexample :
    fetchExplanation none "T" [c6entryA] (.error "x") 5 9 =
      (.ready (jarr [Json.str "c"]) (Json.str "T"), [c6entryA], false) ∧
    c6entryA.user_id = "A" ∧
    fetchExplanation (some "B") "T" [c6entryA] (.error "x") 5 9 =
      (.ready (jarr [Json.str "c"]) (Json.str "T"), [c6entryA], false) := by
  decide

/-- Claim C6 (amended).  Guests never write to the history table, and
when no entry at all matches the topic, sequential guest loads each
invoke the Generation Client and leave the table unchanged; the lookup,
however, is a global exact-topic match not scoped to any identity: the
first stored entry with that topic is returned to guests and to every
other user alike. -/
theorem c6_guest_and_scoping (T : String) (missStore hitStore : List HistoryEntry)
    (gen gen2 : Except String Json) (now now2 fid fid2 : Nat) :
    (∀ q c n f, saveToHistory none q c n f missStore = missStore) ∧
    ((∀ e ∈ missStore, e.query ≠ Json.str T) →
      (fetchExplanation none T missStore gen now fid).2.2 = true ∧
      (fetchExplanation none T missStore gen now fid).2.1 = missStore ∧
      (fetchExplanation none T (fetchExplanation none T missStore gen now fid).2.1
        gen2 now2 fid2).2.2 = true) ∧
    (∀ u e, hitStore.find? (fun x => decide (x.query = Json.str T)) = some e →
      truthy e.content = true →
      fetchExplanation u T hitStore gen now fid =
        (.ready e.content e.query, hitStore, false)) := by
  refine ⟨fun q c n f => rfl, ?_, ?_⟩
  · intro hfresh
    have hfind : missStore.find? (fun e => decide (e.query = Json.str T)) = none := by
      rw [List.find?_eq_none]
      intro e he
      simp [hfresh e he]
    have hrun : ∀ (g : Except String Json) (n f : Nat),
        (fetchExplanation none T missStore g n f).2.2 = true ∧
        (fetchExplanation none T missStore g n f).2.1 = missStore := by
      intro g n f
      cases g with
      | error m => simp [fetchExplanation, hfind, generatePath]
      | ok result => simp [fetchExplanation, hfind, generatePath, saveToHistory]
    refine ⟨(hrun gen now fid).1, (hrun gen now fid).2, ?_⟩
    rw [(hrun gen now fid).2]
    exact (hrun gen2 now2 fid2).1
  · intro u e hfind htr
    simp [fetchExplanation, hfind, htr]

/-- Witness for claim C6: a guest call on an empty table invokes the
client, and identity `B` receives identity `A`'s stored entry. -/
theorem c6_guest_and_scoping_witness :
    (fetchExplanation none "T" [] (.error "x") 5 9).2.2 = true ∧
    fetchExplanation (some "B") "T" [c6entryA] (.error "x") 5 9 =
      (.ready c6entryA.content c6entryA.query, [c6entryA], false) :=
  ⟨((c6_guest_and_scoping "T" [] [c6entryA] (.error "x") (.error "x") 5 5 9 9).2.1
      (by simp)).1,
   (c6_guest_and_scoping "T" [] [c6entryA] (.error "x") (.error "x") 5 5 9 9).2.2
     (some "B") c6entryA (by decide) (by decide)⟩

/-- Claim C7 (counterexample).  The model response
`\x7b"cleanTopic":"X","cards":[]\x7d` passes the shape check, so the session
ends `ready` with an empty card sequence — an empty success, which the
claim rules out. -/
theorem c7_counterexample :
    fetchExplanation (some "u") "X" [] (generationOutcome "X" (.ok c7raw)) 1 1 =
      (.ready (jarr []) (Json.str "X"),
       [⟨1, "u", Json.str "X", jarr [], 1⟩], true) := by
  decide

/-- Claim C7 (amended).  Every run ends in exactly one of the two
observable outcomes — `ready`, or `failed` with a non-empty message —
but a `ready` outcome may carry an empty card sequence (for instance
when the model returns an empty `cards` array). -/
theorem c7_outcomes (u : Option String) (T : String) (store : List HistoryEntry)
    (gen : Except String Json) (now fid : Nat) :
    (∃ cards title, (fetchExplanation u T store gen now fid).1 = .ready cards title) ∨
    (∃ m, (fetchExplanation u T store gen now fid).1 = .failed m ∧ 0 < m.length) := by
  have herr : ∀ m : String, 0 < (errorText m).length := by
    intro m
    unfold errorText
    rw [String.length_append, String.length_append]
    have h7 : (0 : Nat) < "Error: ".length := by decide
    omega
  unfold fetchExplanation
  cases hf : store.find? (fun e => decide (e.query = Json.str T)) with
  | some cached =>
    by_cases ht : truthy cached.content
    · left
      exact ⟨cached.content, cached.query, by simp [ht]⟩
    · cases gen with
      | error m => right; exact ⟨errorText m, by simp [ht, generatePath], herr m⟩
      | ok result => left; simp [ht, generatePath]
  | none =>
    cases gen with
    | error m => right; exact ⟨errorText m, by simp [generatePath], herr m⟩
    | ok result => left; simp [generatePath]

/-- Claim C4 (counterexample).  After identity `B` generates 15 distinct
topics and identity `A` then generates one, the global trim leaves 10
rows in total but only 9 rows for `B` — not the 10 per identity the
claim requires after `N+5 = 15` generations. -/
theorem c4_counterexample :
    (c4sim.filter (fun e => decide (e.user_id = "B"))).length = 9 ∧
    c4sim.length = 10 := by
  decide

/-- Claim C4 (amended).  The bounded-history invariant is enforced
globally, not per identity: after every write (given distinct row ids)
at most 10 rows remain across all identities, and every evicted row is
no newer than every surviving row (oldest by timestamp evicted first).
One identity's write can therefore evict another identity's rows. -/
theorem c4_global_bound_eviction (store : List HistoryEntry)
    (h : (store.map (fun e => e.id)).Nodup) :
    (maintainHistoryLimit store).length ≤ 10 ∧
    ∀ e ∈ store, e ∉ maintainHistoryLimit store →
      ∀ k ∈ maintainHistoryLimit store, e.created_at ≤ k.created_at := by
  by_cases hlen : (recencyOrder store).length > 10
  case neg =>
    have heq : maintainHistoryLimit store = store := by
      simp only [maintainHistoryLimit]
      rw [if_neg hlen]
    rw [heq]
    constructor
    · have hl := (sortByNewest_perm store).length_eq
      simp only [recencyOrder] at hlen
      omega
    · intro e he hne k _
      exact absurd he hne
  case pos =>
    have heq : maintainHistoryLimit store = store.filter
        (fun e => !(decide (e.id ∈ ((recencyOrder store).drop 10).map (fun x => x.id)))) := by
      simp only [maintainHistoryLimit]
      rw [if_pos hlen]
    have hperm : List.Perm (recencyOrder store) store := sortByNewest_perm store
    have hsorted : (recencyOrder store).Pairwise
        (fun a b => b.created_at ≤ a.created_at) := sortByNewest_pairwise store
    have hTD : (recencyOrder store).take 10 ++ (recencyOrder store).drop 10 =
        recencyOrder store := List.take_append_drop 10 (recencyOrder store)
    have hkeep : ∀ x ∈ maintainHistoryLimit store, x ∈ (recencyOrder store).take 10 := by
      intro x hx
      rw [heq] at hx
      have hxs := (List.mem_filter.mp hx).1
      have hpx := (List.mem_filter.mp hx).2
      have hxd : x ∈ recencyOrder store := hperm.mem_iff.mpr hxs
      rw [← hTD] at hxd
      rcases List.mem_append.mp hxd with hT | hD
      · exact hT
      · exfalso
        have hmem : x.id ∈ ((recencyOrder store).drop 10).map (fun e => e.id) :=
          List.mem_map_of_mem _ hD
        have hpx2 : ¬ x.id ∈ ((recencyOrder store).map (fun x => x.id)).drop 10 := by
          simpa using hpx
        rw [List.map_drop] at hmem
        exact hpx2 hmem
    have hnodupData : ((recencyOrder store).map (fun e => e.id)).Nodup :=
      ((hperm.map (fun e => e.id)).nodup_iff).mpr h
    constructor
    · have hsub : List.Sublist (maintainHistoryLimit store) store := by
        rw [heq]
        exact List.filter_sublist store
      have hnodupKept : ((maintainHistoryLimit store).map (fun e => e.id)).Nodup :=
        List.Nodup.sublist (hsub.map (fun e => e.id)) h
      have hsubset : ((maintainHistoryLimit store).map (fun e => e.id)) ⊆
          (((recencyOrder store).take 10).map (fun e => e.id)) := by
        intro y hy
        rcases List.mem_map.mp hy with ⟨x, hx, rfl⟩
        exact List.mem_map_of_mem _ (hkeep x hx)
      have hlenle := (List.Nodup.subperm hnodupKept hsubset).length_le
      rw [List.length_map, List.length_map] at hlenle
      calc (maintainHistoryLimit store).length
          ≤ ((recencyOrder store).take 10).length := hlenle
        _ ≤ 10 := by
          rw [List.length_take]
          exact Nat.min_le_left _ _
    · intro e he hne k hk
      have hkT : k ∈ (recencyOrder store).take 10 := hkeep k hk
      have heD : e ∈ (recencyOrder store).drop 10 := by
        have hid : e.id ∈ ((recencyOrder store).drop 10).map (fun x => x.id) := by
          by_contra hc
          refine hne ?_
          rw [heq]
          refine List.mem_filter.mpr ⟨he, ?_⟩
          rw [decide_eq_false hc]
          rfl
        have hed : e ∈ recencyOrder store := hperm.mem_iff.mpr he
        rw [← hTD] at hed
        rcases List.mem_append.mp hed with hT | hD
        · exfalso
          have hidT : e.id ∈ ((recencyOrder store).take 10).map (fun x => x.id) :=
            List.mem_map_of_mem _ hT
          have hnd := hnodupData
          rw [← hTD, List.map_append] at hnd
          exact (List.nodup_append.mp hnd).2.2 hidT hid
        · exact hD
      have hpair := hsorted
      rw [← hTD] at hpair
      exact (List.pairwise_append.mp hpair).2.2 k hkT e heD

/-- Witness for claim C4: the global bound evaluated on a concrete
12-row table with distinct ids. -/
theorem c4_global_bound_eviction_witness :
    (c4wStore.map (fun e => e.id)).Nodup ∧
    (maintainHistoryLimit c4wStore).length ≤ 10 :=
  ⟨by decide, (c4_global_bound_eviction c4wStore (by decide)).1⟩
